import Mathlib

/-!
Verification of the cat-walk gait transition sequencer
(src/src/routes/+page.svelte).

The development shallowly embeds the transition graph, the BFS pathfinder
`findTransitionPath`, the substring gait classifier `getCurrentGait`, and the
tick-driven animation-queue state machine (`playAnimation`, `playNextInQueue`,
`startTransitionToGait`, `playTransitionTo`, `animate`).

Time is modelled in integer milliseconds: the source's float constants
0.016 s (deltaTime), 0.05 s (queue-advance epsilon) and 0.3 s (crossfade)
are the exact integers 16, 50 and 300; clip durations are arbitrary
integers supplied with the loaded clip list.
-/

/-- The closed gait enumeration (`type GaitState`, line 94). -/
inductive GaitState where
  | stand
  | walk
  | trot
  | gallop
  | sit
  | reach
deriving DecidableEq, Fintype

/-- The string literal backing each `GaitState` member (in the source the
states *are* these strings; clip names are compared against them). -/
def gaitName : GaitState → String
  | .stand => "stand"
  | .walk => "walk"
  | .trot => "trot"
  | .gallop => "gallop"
  | .sit => "sit"
  | .reach => "reach"

/-- Declaration order of the graph's keys; `Object.keys` iteration in the BFS
enumerates successor states in exactly this order (lines 97-146 declare every
row with these keys in this order). -/
def allGaits : List GaitState :=
  [.stand, .walk, .trot, .gallop, .sit, .reach]

/-- The authored transition graph (`transitionGraph`, lines 97-146): for each
ordered pair of gaits, the list of clip names of the direct edge, `[]` when the
pair is left to be auto-calculated by BFS. -/
def transitionGraph : GaitState → GaitState → List String
  | .stand, .stand => ["stand"]
  | .stand, .walk => ["stand_to_walk", "walk"]
  | .stand, .trot => ["stand_to_trot", "trot"]
  | .stand, .gallop => ["stand_to_trot", "trot_to_gallop", "gallop"]
  | .stand, .sit => ["stand_to_sit", "sit"]
  | .stand, .reach => []
  | .walk, .stand => ["walk_to_stand", "stand"]
  | .walk, .walk => ["walk"]
  | .walk, .trot => ["walk_to_trot", "trot"]
  | .walk, .gallop => ["walk_to_trot", "trot_to_gallop", "gallop"]
  | .walk, .sit => []
  | .walk, .reach => []
  | .trot, .stand => ["trot_to_stand", "stand"]
  | .trot, .walk => ["trot_to_walk", "walk"]
  | .trot, .trot => ["trot"]
  | .trot, .gallop => ["trot_to_gallop", "gallop"]
  | .trot, .sit => []
  | .trot, .reach => []
  | .gallop, .stand => ["gallop_to_trot", "trot_to_stand", "stand"]
  | .gallop, .walk => ["gallop_to_trot", "trot_to_walk", "walk"]
  | .gallop, .trot => ["gallop_to_trot", "trot"]
  | .gallop, .gallop => ["gallop"]
  | .gallop, .sit => []
  | .gallop, .reach => []
  | .sit, .stand => ["sit_to_stand", "stand"]
  | .sit, .walk => ["sit_to_stand", "stand_to_walk", "walk"]
  | .sit, .trot => ["sit_to_stand", "stand_to_trot", "trot"]
  | .sit, .gallop => ["sit_to_stand", "stand_to_trot", "trot_to_gallop", "gallop"]
  | .sit, .sit => ["sit"]
  | .sit, .reach => ["sit_to_reach", "reach"]
  | .reach, .stand => ["reach_to_sit", "sit_to_stand", "stand"]
  | .reach, .walk => ["reach_to_sit", "sit_to_stand", "stand_to_walk", "walk"]
  | .reach, .trot => ["reach_to_sit", "sit_to_stand", "stand_to_trot", "trot"]
  | .reach, .gallop => ["reach_to_sit", "sit_to_stand", "stand_to_trot", "trot_to_gallop", "gallop"]
  | .reach, .sit => ["reach_to_sit", "sit"]
  | .reach, .reach => ["reach"]

/-- JS `String.prototype.includes`: substring containment test. -/
def jsIncludes (s sub : String) : Bool :=
  decide (sub.toList <:+: s.toList)

/-- The per-edge clip list pushed onto a BFS path (lines 180-187): every clip
of the edge is appended, except that the final clip is skipped when the edge is
non-terminal (`nextState !== toG`) and that clip's name equals the intermediate
state's own name (the skip condition `i === transition.length - 1 && anim ===
nextState` can only hold at the last index, so the indexed loop is equivalent
to this last-element test). -/
def elideLoopClip (transition : List String) (nextState toG : GaitState) : List String :=
  if nextState ≠ toG then
    match transition.getLast? with
    | some lastClip => if lastClip = gaitName nextState then transition.dropLast else transition
    | none => transition
  else transition

/-- The inner `for (const nextState of Object.keys ...)` loop of one BFS
dequeue step (lines 170-198): scan the successor states in declaration order;
skip visited states and empty edges; on reaching `toG` return the assembled
path (`Sum.inl`), otherwise return the extended visited list and queue
(`Sum.inr`). -/
def scanNext (toG currentState : GaitState) (currentPath : List String) :
    List GaitState → List GaitState → List (GaitState × List String) →
    Sum (List String) (List GaitState × List (GaitState × List String))
  | [], visited, queue => Sum.inr (visited, queue)
  | nextState :: rest, visited, queue =>
    if nextState ∈ visited then
      scanNext toG currentState currentPath rest visited queue
    else if (transitionGraph currentState nextState).isEmpty then
      scanNext toG currentState currentPath rest visited queue
    else
      let newPath := currentPath ++ elideLoopClip (transitionGraph currentState nextState) nextState toG
      if nextState = toG then Sum.inl newPath
      else scanNext toG currentState currentPath rest (visited ++ [nextState]) (queue ++ [(nextState, newPath)])

/-- The outer `while (queue.length > 0)` BFS loop (lines 166-199).  Fuel-based
recursion: the JS loop dequeues at most 6 elements (a state is enqueued only
when first marked visited, and there are 6 states), so any fuel ≥ 7 computes
the same result; fuel exhaustion and an empty queue both yield the no-path
fallback `[]` (lines 201-203). -/
def bfsLoop (toG : GaitState) : Nat → List (GaitState × List String) → List GaitState → List String
  | 0, _, _ => []
  | _ + 1, [], _ => []
  | fuel + 1, (currentState, currentPath) :: queueRest, visited =>
    match scanNext toG currentState currentPath allGaits visited queueRest with
    | Sum.inl found => found
    | Sum.inr (visited2, queue2) => bfsLoop toG fuel queue2 visited2

/-- `findTransitionPath` (lines 149-204): same-state and direct-edge
short-circuits, then BFS through intermediate states.  The source's parameter
names `from`/`to` become `fromG`/`toG` (`from` and `to` are Lean keywords). -/
def findTransitionPath (fromG toG : GaitState) : List String :=
  if fromG = toG then transitionGraph fromG toG
  else
    let directPath := transitionGraph fromG toG
    if ¬ directPath.isEmpty then directPath
    else bfsLoop toG 7 [(fromG, [])] [fromG]

/-- A loaded animation clip as the sequencer sees it: a name and a duration.
Durations are integer milliseconds (possibly zero or negative, to model
degenerate clips). -/
structure Clip where
  name : String
  duration : Int
deriving DecidableEq

/-- The slice of a `THREE.AnimationAction` the sequencer logic reads: which
clip it plays, whether it was configured `LoopRepeat` (`loop = true`) or
`LoopOnce` (`loop = false`), and its playback clock `time` in milliseconds.
`mixer.update` is modelled as advancing `time` without wrapping or clamping;
the source only ever compares `time % duration` and `time ≥ duration - 0.05`,
for which the first crossing agrees with THREE's wrapped/clamped clock. -/
structure AnimAction where
  name : String
  loop : Bool
  time : Int
deriving DecidableEq

/-- The mutable module-level state of the sequencer (lines 211-227), plus a
ghost `playLog` recording every successful `playAnimation` call as
`(clip name, loop flag, crossfade ms)` — pure instrumentation, read by no
transition function. -/
structure SeqState where
  animations : List Clip
  currentAction : Option AnimAction
  selectedAnimation : String
  isPlaying : Bool
  animationQueue : List String
  currentAnimIndex : Nat
  pendingTargetGait : Option GaitState
  currentGaitState : GaitState
  isTransitioning : Bool
  waitForCycleEnd : Bool
  playLog : List (String × Bool × Int)
deriving DecidableEq

/-- `CONFIG.animation.deltaTime` = 0.016 s per tick, in ms. -/
def DELTA_MS : Int := 16

/-- The fixed crossfade duration 0.3 s, in ms. -/
def CROSSFADE_MS : Int := 300

/-- The queue-advance epsilon 0.05 s (line 567), in ms. -/
def EPSILON_MS : Int := 50

/-- `animations.find((clip) => clip.name === animationName)` (lines 399, 467,
492, 549, 566). -/
def findClip (anims : List Clip) (n : String) : Option Clip :=
  anims.find? (fun c => c.name = n)

/-- `playAnimation(animationName, loop, crossfadeDuration)` (lines 391-426):
a missing clip returns with no state change; otherwise the new action is
configured (`loop`, reset to time 0) and becomes current, `selectedAnimation`
and `isPlaying` are set, and the successful play is recorded in the ghost log.
The crossfade itself only affects rendering, not sequencer state. -/
def playAnimation (s : SeqState) (animationName : String) (loop : Bool)
    (crossfadeMs : Int) : SeqState :=
  match findClip s.animations animationName with
  | none => s
  | some _ =>
    { s with
      currentAction := some { name := animationName, loop := loop, time := 0 }
      isPlaying := true
      selectedAnimation := animationName
      playLog := s.playLog ++ [(animationName, loop, crossfadeMs)] }

/-- The substring-priority gait classifier, factored out of `getCurrentGait`
(lines 471-479): the `name` argument is `selectedAnimation` and the `fallback`
argument is the tracked `currentGaitState`. -/
def deriveGait (name : String) (fallback : GaitState) : GaitState :=
  if jsIncludes name "gallop" then .gallop
  else if jsIncludes name "trot" then .trot
  else if jsIncludes name "walk" then .walk
  else if jsIncludes name "sit" then .sit
  else if jsIncludes name "reach" then .reach
  else if jsIncludes name "stand" then .stand
  else fallback

/-- `getCurrentGait()` (lines 471-479). -/
def getCurrentGait (s : SeqState) : GaitState :=
  deriveGait s.selectedAnimation s.currentGaitState

/-- The play branch of `playNextInQueue` (lines 450-456): play
`animationQueue[currentAnimIndex]` (looping iff it is the last element) with
the fixed 0.3 crossfade, then increment the cursor.  Callers establish
`currentAnimIndex < animationQueue.length`, so the `getD` default is never
used. -/
def playQueueStep (s : SeqState) : SeqState :=
  let animName := s.animationQueue.getD s.currentAnimIndex ""
  let isLast := s.currentAnimIndex = s.animationQueue.length - 1
  { playAnimation s animName isLast CROSSFADE_MS with
      currentAnimIndex := s.currentAnimIndex + 1 }

/-- `startTransitionToGait(targetGait)` (lines 505-521): compute the path from
the derived current gait; abort on an empty path; otherwise install the queue
and start playing it.  The source ends with a call to `playNextInQueue`; since
the fresh queue is non-empty and the cursor is 0 that call always takes the
play branch, inlined here as `playQueueStep` (which breaks the mutual
recursion of the two source functions). -/
def startTransitionToGait (s : SeqState) (targetGait : GaitState) : SeqState :=
  let currentGait := getCurrentGait s
  let transitionPath := findTransitionPath currentGait targetGait
  if transitionPath.isEmpty then s
  else
    playQueueStep
      { s with
          animationQueue := transitionPath
          currentAnimIndex := 0
          isTransitioning := true }

/-- `playNextInQueue()` (lines 429-457): when the cursor has exhausted the
queue, clear the transition state, re-derive `currentGaitState`, and start any
pending transition; otherwise play the next queue element. -/
def playNextInQueue (s : SeqState) : SeqState :=
  if s.animationQueue.length ≤ s.currentAnimIndex then
    let s1 := { s with isTransitioning := false, currentAnimIndex := 0, animationQueue := [] }
    let s2 := { s1 with currentGaitState := getCurrentGait s1 }
    match s2.pendingTargetGait with
    | some nextTarget =>
      startTransitionToGait
        { s2 with pendingTargetGait := none, waitForCycleEnd := false } nextTarget
    | none => s2
  else playQueueStep s

/-- `playTransitionTo(targetGait)` (lines 481-503), the `requestGait` entry
point: no-op when already settled in the target gait; while transitioning only
overwrite the pending slot; when settled in a looping clip defer to the cycle
boundary; otherwise start immediately (and afterwards reset
`waitForCycleEnd`). -/
def playTransitionTo (s : SeqState) (targetGait : GaitState) : SeqState :=
  if getCurrentGait s = targetGait ∧ s.isTransitioning = false then s
  else if s.isTransitioning then { s with pendingTargetGait := some targetGait }
  else
    match findClip s.animations s.selectedAnimation, s.currentAction with
    | some _, some act =>
      if act.loop then
        { s with pendingTargetGait := some targetGait, waitForCycleEnd := true }
      else { startTransitionToGait s targetGait with waitForCycleEnd := false }
    | _, _ => { startTransitionToGait s targetGait with waitForCycleEnd := false }

/-- The deferral comparison `timeToEnd <= bound` of lines 551-555, where
`timeToEnd = duration - currentAction.time % duration`.  JS `%` with a zero
divisor yields `NaN` and every `NaN` comparison is false, hence the zero
guard; for a non-negative dividend the JS truncated remainder equals
`time.toNat % duration.natAbs` (the sequencer's clock is never negative). -/
def timeToEndLe (time duration bound : Int) : Bool :=
  if duration = 0 then false
  else decide (duration - ((time.toNat % duration.natAbs : Nat) : Int) ≤ bound)

/-- `mixer.update(CONFIG.animation.deltaTime)` (line 545): the active action's
clock advances by one tick. -/
def advanceMixer (s : SeqState) : SeqState :=
  { s with currentAction := s.currentAction.map (fun a => { a with time := a.time + DELTA_MS }) }

/-- The cycle-end deferral block of `animate` (lines 547-562): when waiting
for a loop boundary with a pending target and the looping current clip is
within the crossfade duration of its cycle end, consume the pending target and
start its transition.  JS truthiness of `selectedAnimation` is the non-empty
string test. -/
def checkCycleEnd (s : SeqState) : SeqState :=
  match s.currentAction, s.pendingTargetGait with
  | some act, some nextTarget =>
    if s.waitForCycleEnd ∧ s.selectedAnimation ≠ "" then
      match findClip s.animations s.selectedAnimation with
      | some clip =>
        if act.loop ∧ timeToEndLe act.time clip.duration CROSSFADE_MS then
          startTransitionToGait
            { s with pendingTargetGait := none, waitForCycleEnd := false } nextTarget
        else s
      | none => s
    else s
  | _, _ => s

/-- The queue-advance block of `animate` (lines 564-570): while transitioning,
once the current clip is within 0.05 s of its end, advance the queue. -/
def checkQueueAdvance (s : SeqState) : SeqState :=
  match s.currentAction with
  | some act =>
    if s.isTransitioning ∧ s.selectedAnimation ≠ "" then
      match findClip s.animations s.selectedAnimation with
      | some clip =>
        if clip.duration - EPSILON_MS ≤ act.time then playNextInQueue s else s
      | none => s
    else s
  | none => s

/-- One frame of `animate()` (lines 535-574) as it affects sequencer state:
advance the mixer clock, then the cycle-end deferral check, then the
queue-advance check (rendering and controls are outside the model). -/
def tick (s : SeqState) : SeqState :=
  checkQueueAdvance (checkCycleEnd (advanceMixer s))

/-- The sequencer state right before the initial play: module initialisation
of lines 211-227 for a given loaded clip list. -/
def initState (anims : List Clip) : SeqState :=
  { animations := anims
    currentAction := none
    selectedAnimation := ""
    isPlaying := false
    animationQueue := []
    currentAnimIndex := 0
    pendingTargetGait := none
    currentGaitState := .stand
    isTransitioning := false
    waitForCycleEnd := false
    playLog := [] }

/-- State after the GLTF load callback starts the default animation:
`playAnimation('stand', true, 0)` (line 379). -/
def loadedState (anims : List Clip) : SeqState :=
  playAnimation (initState anims) "stand" true 0

/-- States reachable from initialisation through button presses
(`playTransitionTo`) and render ticks (`animate`). -/
inductive Reachable (anims : List Clip) : SeqState → Prop where
  | init : Reachable anims (loadedState anims)
  | request {s : SeqState} (t : GaitState) :
      Reachable anims s → Reachable anims (playTransitionTo s t)
  | frame {s : SeqState} :
      Reachable anims s → Reachable anims (tick s)

/-- The priority order of the classifier's substring tests (lines 472-477). -/
def priorityGaits : List GaitState :=
  [.gallop, .trot, .walk, .sit, .reach, .stand]

/-- Spec wording of the classifier (section 4.4): classify a clip name by
substring containment against the fixed priority order gallop > trot > walk >
sit > reach > stand; first match wins; fall back to the previously tracked
gait.  Stated from the spec's words, to be compared with `deriveGait` from the
source. -/
def deriveGaitSpec (name : String) (fallback : GaitState) : GaitState :=
  (priorityGaits.find? (fun g => jsIncludes name (gaitName g))).getD fallback

/-- Claim C1: with the authored graph (direct stand-sit edges, no direct
walk-sit entry), `findTransitionPath walk sit` is exactly
`[walk_to_stand, stand_to_sit, sit]`: BFS routes through `stand` and elides
the `stand` loop clip of the intermediate edge. -/
theorem findTransitionPath_walk_sit_via_stand :
    transitionGraph .walk .sit = [] ∧
    transitionGraph .stand .sit ≠ [] ∧
    transitionGraph .sit .stand ≠ [] ∧
    findTransitionPath .walk .sit = ["walk_to_stand", "stand_to_sit", "sit"] ∧
    elideLoopClip (transitionGraph .walk .stand) .stand .sit = ["walk_to_stand"] := by
  decide

/-- Claim C2: a non-empty direct graph edge is returned verbatim by
`findTransitionPath` (direct-edge priority), and every self-pair returns the
graph's single-clip self-loop entry. -/
theorem findTransitionPath_direct_edge_priority :
    ∀ fromG toG : GaitState,
      (transitionGraph fromG toG ≠ [] →
        findTransitionPath fromG toG = transitionGraph fromG toG) ∧
      findTransitionPath fromG fromG = transitionGraph fromG fromG ∧
      transitionGraph fromG fromG = [gaitName fromG] := by
  decide

/-- Witness for C2 at the concrete pair (stand, walk). -/
theorem findTransitionPath_direct_edge_priority_witness :
    transitionGraph .stand .walk ≠ [] ∧
    findTransitionPath .stand .walk = transitionGraph .stand .walk :=
  ⟨by decide, (findTransitionPath_direct_edge_priority .stand .walk).1 (by decide)⟩

/-- Claim C3: for every ordered pair of gaits (all 36 pairs are reachable in
the authored graph), `findTransitionPath` returns a non-empty clip sequence
whose last element classifies (under the substring-priority classifier, any
fallback) to the target gait. -/
theorem findTransitionPath_last_clip_reaches_target :
    ∀ fromG toG fallback : GaitState,
      findTransitionPath fromG toG ≠ [] ∧
      deriveGait ((findTransitionPath fromG toG).getLastD "") fallback = toG := by
  decide

/-- Claim C9: the source classifier `deriveGait` (the body of
`getCurrentGait`, a pure function of the clip name and the previously tracked
gait) coincides with the spec's description: first keyword of the priority
list gallop, trot, walk, sit, reach, stand contained in the name wins, and
with no match the previously tracked gait is returned. -/
theorem deriveGait_eq_spec :
    ∀ (name : String) (fallback : GaitState),
      deriveGait name fallback = deriveGaitSpec name fallback := by
  intro name fallback
  unfold deriveGait deriveGaitSpec priorityGaits
  cases hga : jsIncludes name "gallop" <;>
    cases htr : jsIncludes name "trot" <;>
      cases hwa : jsIncludes name "walk" <;>
        cases hsi : jsIncludes name "sit" <;>
          cases hre : jsIncludes name "reach" <;>
            cases hst : jsIncludes name "stand" <;>
              simp [List.find?, gaitName, hga, htr, hwa, hsi, hre, hst]

/-- A demo clip set: every clip name the authored graph mentions, each 0.4 s
long. -/
def demoClips : List Clip :=
  [⟨"stand", 400⟩, ⟨"walk", 400⟩, ⟨"trot", 400⟩, ⟨"gallop", 400⟩,
   ⟨"sit", 400⟩, ⟨"reach", 400⟩,
   ⟨"stand_to_walk", 400⟩, ⟨"stand_to_trot", 400⟩, ⟨"stand_to_sit", 400⟩,
   ⟨"walk_to_stand", 400⟩, ⟨"walk_to_trot", 400⟩,
   ⟨"trot_to_stand", 400⟩, ⟨"trot_to_walk", 400⟩, ⟨"trot_to_gallop", 400⟩,
   ⟨"gallop_to_trot", 400⟩,
   ⟨"sit_to_stand", 400⟩, ⟨"sit_to_reach", 400⟩, ⟨"reach_to_sit", 400⟩]

set_option maxRecDepth 10000 in
/-- Claim C4: requesting gallop while settled in the stand loop (the state
right after initialisation) plays, over the following ticks, exactly the three
clips stand_to_trot, trot_to_gallop, gallop in that order with loop flags
false, false, true (loop iff last in queue), each with the fixed 0.3 s
crossfade; after the queue drains `currentGaitState = gallop` and the
transition flag is clear.  The ghost `playLog` records every successful play:
its only entry before the request is the initial `stand` loop start. -/
theorem request_gallop_from_stand_plays_three_clips :
    (loadedState demoClips).playLog = [("stand", true, 0)] ∧
    (loadedState demoClips).currentGaitState = .stand ∧
    (tick^[80] (playTransitionTo (loadedState demoClips) .gallop)).playLog =
      [("stand", true, 0), ("stand_to_trot", false, 300),
       ("trot_to_gallop", false, 300), ("gallop", true, 300)] ∧
    (tick^[80] (playTransitionTo (loadedState demoClips) .gallop)).currentGaitState = .gallop ∧
    (tick^[80] (playTransitionTo (loadedState demoClips) .gallop)).isTransitioning = false ∧
    (tick^[80] (playTransitionTo (loadedState demoClips) .gallop)).animationQueue = [] := by
  decide

@[simp]
theorem playAnimation_animations (s : SeqState) (n : String) (l : Bool) (c : Int) :
    (playAnimation s n l c).animations = s.animations := by
  unfold playAnimation; cases hfc : findClip s.animations n <;> rfl

@[simp]
theorem playAnimation_animationQueue (s : SeqState) (n : String) (l : Bool) (c : Int) :
    (playAnimation s n l c).animationQueue = s.animationQueue := by
  unfold playAnimation; cases hfc : findClip s.animations n <;> rfl

@[simp]
theorem playAnimation_currentAnimIndex (s : SeqState) (n : String) (l : Bool) (c : Int) :
    (playAnimation s n l c).currentAnimIndex = s.currentAnimIndex := by
  unfold playAnimation; cases hfc : findClip s.animations n <;> rfl

@[simp]
theorem playAnimation_pendingTargetGait (s : SeqState) (n : String) (l : Bool) (c : Int) :
    (playAnimation s n l c).pendingTargetGait = s.pendingTargetGait := by
  unfold playAnimation; cases hfc : findClip s.animations n <;> rfl

@[simp]
theorem playAnimation_currentGaitState (s : SeqState) (n : String) (l : Bool) (c : Int) :
    (playAnimation s n l c).currentGaitState = s.currentGaitState := by
  unfold playAnimation; cases hfc : findClip s.animations n <;> rfl

@[simp]
theorem playAnimation_isTransitioning (s : SeqState) (n : String) (l : Bool) (c : Int) :
    (playAnimation s n l c).isTransitioning = s.isTransitioning := by
  unfold playAnimation; cases hfc : findClip s.animations n <;> rfl

@[simp]
theorem playAnimation_waitForCycleEnd (s : SeqState) (n : String) (l : Bool) (c : Int) :
    (playAnimation s n l c).waitForCycleEnd = s.waitForCycleEnd := by
  unfold playAnimation; cases hfc : findClip s.animations n <;> rfl

/-- The classifier is idempotent in its fallback argument: feeding its own
result back as the tracked gait changes nothing. -/
theorem deriveGait_idem (n : String) (fb : GaitState) :
    deriveGait n (deriveGait n fb) = deriveGait n fb := by
  unfold deriveGait; split_ifs <;> rfl

/-- Claim C5 (single-pending law): two `requestGait` calls issued while a
transition is in flight leave the whole state unchanged except that the
pending slot holds only the second target (the first is overwritten, the
in-flight queue and playing clip untouched), and when the active queue later
drains the started transition is the one computed for the second target. -/
theorem single_pending_overwrite (s : SeqState) (A B : GaitState)
    (h : s.isTransitioning = true) :
    playTransitionTo (playTransitionTo s A) B = { s with pendingTargetGait := some B } ∧
    (s.animationQueue.length ≤ s.currentAnimIndex →
      (playNextInQueue { s with pendingTargetGait := some B }).animationQueue =
        findTransitionPath (getCurrentGait s) B ∧
      (playNextInQueue { s with pendingTargetGait := some B }).pendingTargetGait = none) := by
  constructor
  · unfold playTransitionTo
    simp only [h, getCurrentGait]
    simp
  · intro hq
    unfold playNextInQueue
    simp only [hq, if_pos]
    unfold startTransitionToGait
    simp only [getCurrentGait, deriveGait_idem]
    by_cases hp : (findTransitionPath (deriveGait s.selectedAnimation s.currentGaitState) B).isEmpty
    · simp [hp, List.isEmpty_iff.mp hp]
    · simp [hp, playQueueStep]

/-- Witness for C5 at a concrete in-flight state. -/
def c5State : SeqState :=
  { animations := demoClips
    currentAction := some ⟨"stand_to_walk", false, 32⟩
    selectedAnimation := "stand_to_walk"
    isPlaying := true
    animationQueue := ["stand_to_walk", "walk"]
    currentAnimIndex := 1
    pendingTargetGait := none
    currentGaitState := .stand
    isTransitioning := true
    waitForCycleEnd := false
    playLog := [] }

/-- Witness for C5: at `c5State`, requesting sit then trot leaves only trot
pending and alters nothing else. -/
theorem single_pending_overwrite_witness :
    c5State.isTransitioning = true ∧
    playTransitionTo (playTransitionTo c5State .sit) .trot =
      { c5State with pendingTargetGait := some .trot } :=
  ⟨rfl, (single_pending_overwrite c5State .sit .trot rfl).1⟩

/-- The demo clip set with `trot_to_gallop` absent (step 2 of the 3-step
stand-to-gallop queue is missing). -/
def clipsMissingTrotToGallop : List Clip :=
  [⟨"stand", 400⟩, ⟨"walk", 400⟩, ⟨"trot", 400⟩, ⟨"gallop", 400⟩,
   ⟨"sit", 400⟩, ⟨"reach", 400⟩,
   ⟨"stand_to_walk", 400⟩, ⟨"stand_to_trot", 400⟩, ⟨"stand_to_sit", 400⟩,
   ⟨"walk_to_stand", 400⟩, ⟨"walk_to_trot", 400⟩,
   ⟨"trot_to_stand", 400⟩, ⟨"trot_to_walk", 400⟩,
   ⟨"gallop_to_trot", 400⟩,
   ⟨"sit_to_stand", 400⟩, ⟨"sit_to_reach", 400⟩, ⟨"reach_to_sit", 400⟩]

set_option maxRecDepth 10000 in
/-- Counterexample to claim C7: request gallop from the settled stand loop
with `trot_to_gallop` (queue step 2 of 3) missing from the loaded clip set.
The sequencer does NOT fall back to idling in the pre-transition gait's loop:
the missing step is skipped, the remaining queue entries still play, and after
the queue drains `currentGaitState` is `gallop`, not the pre-transition
`stand`. -/
theorem clip_missing_midqueue_changes_gait :
    (loadedState clipsMissingTrotToGallop).currentGaitState = .stand ∧
    (tick^[60] (playTransitionTo (loadedState clipsMissingTrotToGallop) .gallop)).currentGaitState
      = .gallop ∧
    (tick^[60] (playTransitionTo (loadedState clipsMissingTrotToGallop) .gallop)).selectedAnimation
      = "gallop" ∧
    (tick^[60] (playTransitionTo (loadedState clipsMissingTrotToGallop) .gallop)).isTransitioning
      = false ∧
    (tick^[60] (playTransitionTo (loadedState clipsMissingTrotToGallop) .gallop)).playLog =
      [("stand", true, 0), ("stand_to_trot", false, 300), ("gallop", true, 300)] := by
  decide

set_option maxRecDepth 10000 in
/-- Claim C7, amended: when the clip named by the current queue step is absent
from the loaded clip set, no exception propagates and the currently playing
clip is not altered by that step, but the queue cursor still advances: the
missing step is skipped, the remaining queue entries still play, and after the
queue drains `currentGaitState` is derived from the last successfully played
clip (the transition target when the final clip exists) rather than being left
at its pre-transition value. -/
theorem clip_missing_midqueue_skips_step (s : SeqState)
    (hcur : s.currentAnimIndex < s.animationQueue.length)
    (hmiss : findClip s.animations (s.animationQueue.getD s.currentAnimIndex "") = none) :
    playNextInQueue s = { s with currentAnimIndex := s.currentAnimIndex + 1 } ∧
    (tick^[60] (playTransitionTo (loadedState clipsMissingTrotToGallop) .gallop)).currentGaitState
      = .gallop := by
  refine ⟨?_, by decide⟩
  unfold playNextInQueue
  rw [if_neg (by omega)]
  unfold playQueueStep playAnimation
  simp only [hmiss]

/-- Witness for the amended C7 at a concrete mid-queue state whose step-2 clip
is missing. -/
def c7SkipState : SeqState :=
  { animations := clipsMissingTrotToGallop
    currentAction := some ⟨"stand_to_trot", false, 368⟩
    selectedAnimation := "stand_to_trot"
    isPlaying := true
    animationQueue := ["stand_to_trot", "trot_to_gallop", "gallop"]
    currentAnimIndex := 1
    pendingTargetGait := none
    currentGaitState := .stand
    isTransitioning := true
    waitForCycleEnd := false
    playLog := [] }

set_option maxRecDepth 10000 in
/-- Witness for the amended C7: the missing clip is skipped, only the cursor
moves. -/
theorem clip_missing_midqueue_skips_step_witness :
    c7SkipState.currentAnimIndex < c7SkipState.animationQueue.length ∧
    playNextInQueue c7SkipState = { c7SkipState with currentAnimIndex := 2 } :=
  ⟨by decide, (clip_missing_midqueue_skips_step c7SkipState (by decide) (by decide)).1⟩

/-- With the authored graph every ordered pair of gaits has a non-empty
transition path. -/
theorem findTransitionPath_ne_nil :
    ∀ fromG toG : GaitState, findTransitionPath fromG toG ≠ [] := by
  decide

/-- Every clip name a transition path can produce is a clip name of the
authored graph. -/
def graphClipNames : List String :=
  ((allGaits.map (fun f => (allGaits.map (fun t => transitionGraph f t)).flatten)).flatten)

/-- All clips of every transition path are graph clip names. -/
theorem findTransitionPath_subset_graph :
    ∀ fromG toG : GaitState, ∀ c ∈ findTransitionPath fromG toG, c ∈ graphClipNames := by
  decide

/-- For a non-negative clock and positive duration, the embedded deferral
comparison is the plain integer statement `duration - time % duration ≤
bound`. -/
theorem timeToEndLe_iff (t d b : Int) (ht : 0 ≤ t) (hd : 0 < d) :
    timeToEndLe t d b = true ↔ d - t % d ≤ b := by
  unfold timeToEndLe
  rw [if_neg (by omega), decide_eq_true_iff,
    Int.natCast_mod, Int.toNat_of_nonneg ht, Int.natAbs_of_nonneg (le_of_lt hd)]

@[simp]
theorem playQueueStep_currentAnimIndex (s : SeqState) :
    (playQueueStep s).currentAnimIndex = s.currentAnimIndex + 1 := rfl

@[simp]
theorem playQueueStep_animationQueue (s : SeqState) :
    (playQueueStep s).animationQueue = s.animationQueue := by
  unfold playQueueStep
  simp

@[simp]
theorem playQueueStep_pendingTargetGait (s : SeqState) :
    (playQueueStep s).pendingTargetGait = s.pendingTargetGait := by
  unfold playQueueStep
  simp

@[simp]
theorem playQueueStep_waitForCycleEnd (s : SeqState) :
    (playQueueStep s).waitForCycleEnd = s.waitForCycleEnd := by
  unfold playQueueStep
  simp

@[simp]
theorem playQueueStep_isTransitioning (s : SeqState) :
    (playQueueStep s).isTransitioning = s.isTransitioning := by
  unfold playQueueStep
  simp


theorem DELTA_MS_eq : DELTA_MS = 16 := rfl

theorem CROSSFADE_MS_eq : CROSSFADE_MS = 300 := rfl

theorem EPSILON_MS_eq : EPSILON_MS = 50 := rfl

@[simp]
theorem playQueueStep_animations (s : SeqState) :
    (playQueueStep s).animations = s.animations := by
  unfold playQueueStep
  simp

/-- The queue-advance check is inert while the current action's clock is
still clear of the 0.05 s end-of-clip window. -/
theorem checkQueueAdvance_of_early (u : SeqState) (act : AnimAction) (clip : Clip)
    (hAct : u.currentAction = some act)
    (hClip : findClip u.animations u.selectedAnimation = some clip)
    (hEarly : act.time < clip.duration - EPSILON_MS) :
    checkQueueAdvance u = u := by
  unfold checkQueueAdvance
  simp only [hAct]
  split
  · simp only [hClip]
    rw [if_neg (by omega)]
  · rfl

/-- When the clip named at the cursor exists, `playQueueStep` makes it the
current action (freshly reset, looping iff last) and the selected
animation. -/
theorem playQueueStep_played (u : SeqState) (c : Clip)
    (hfound : findClip u.animations (u.animationQueue.getD u.currentAnimIndex "") = some c) :
    (playQueueStep u).currentAction =
      some { name := u.animationQueue.getD u.currentAnimIndex ""
             loop := decide (u.currentAnimIndex = u.animationQueue.length - 1)
             time := 0 } ∧
    (playQueueStep u).selectedAnimation = u.animationQueue.getD u.currentAnimIndex "" := by
  unfold playQueueStep playAnimation
  simp only [hfound]
  constructor <;> trivial

/-- The state produced when the cycle-end deferral fires on a settled state
`s` whose current action is `act`: `startTransitionToGait` has installed the
queue for `target` and `playQueueStep` is about to play its head. -/
def deferralQueueState (s : SeqState) (act : AnimAction) (target : GaitState) : SeqState :=
  { s with
      currentAction := some { name := act.name, loop := act.loop, time := act.time + DELTA_MS }
      pendingTargetGait := none
      waitForCycleEnd := false
      animationQueue := findTransitionPath (getCurrentGait s) target
      currentAnimIndex := 0
      isTransitioning := true }

/-- Claim C6 (loop-boundary deferral): a `requestGait target` issued while not
transitioning, while settled in a looping clip and with `target` different
from the derived current gait, starts nothing immediately — it only records
`pendingTargetGait = target` and `waitForCycleEnd = true`.  A subsequent tick
consumes the pending target and clears the wait flag exactly when
`duration - (elapsed mod duration) ≤ 0.3 s` holds for the post-update clock,
and firing installs the queue computed for the pending target.  The two
trailing hypotheses pin down the first clip of that queue (present, longer
than the 0.05 s epsilon) so the queue-advance check of the same tick is
inert. -/
theorem loop_boundary_deferral (s : SeqState) (act : AnimAction) (clip fc : Clip)
    (target : GaitState)
    (hTr : s.isTransitioning = false)
    (hAct : s.currentAction = some act)
    (hLoop : act.loop = true)
    (hSel : s.selectedAnimation ≠ "")
    (hClip : findClip s.animations s.selectedAnimation = some clip)
    (hTime : 0 ≤ act.time)
    (hDur : 0 < clip.duration)
    (hNe : getCurrentGait s ≠ target)
    (hFc : findClip s.animations
      ((findTransitionPath (getCurrentGait s) target).getD 0 "") = some fc)
    (hFcDur : EPSILON_MS < fc.duration) :
    playTransitionTo s target =
      { s with pendingTargetGait := some target, waitForCycleEnd := true } ∧
    (((tick { s with pendingTargetGait := some target, waitForCycleEnd := true }).waitForCycleEnd
        = false ∧
      (tick { s with pendingTargetGait := some target, waitForCycleEnd := true }).pendingTargetGait
        = none) ↔
      clip.duration - (act.time + DELTA_MS) % clip.duration ≤ CROSSFADE_MS) ∧
    (clip.duration - (act.time + DELTA_MS) % clip.duration ≤ CROSSFADE_MS →
      (tick { s with pendingTargetGait := some target, waitForCycleEnd := true }).animationQueue
        = findTransitionPath (getCurrentGait s) target) := by
  have h1 : playTransitionTo s target =
      { s with pendingTargetGait := some target, waitForCycleEnd := true } := by
    unfold playTransitionTo
    rw [if_neg (by simp [hNe]), hTr]
    simp only [Bool.false_eq_true, if_false, hClip, hAct, hLoop, if_true]
  have hpath := findTransitionPath_ne_nil (getCurrentGait s) target
  have hqs : checkQueueAdvance (playQueueStep (deferralQueueState s act target)) =
      playQueueStep (deferralQueueState s act target) := by
    obtain ⟨hA, hS⟩ := playQueueStep_played (deferralQueueState s act target) fc (by exact hFc)
    refine checkQueueAdvance_of_early _ _ fc hA ?_ ?_
    · rw [hS, playQueueStep_animations]
      exact hFc
    · simp only [EPSILON_MS_eq] at hFcDur ⊢
      omega
  have hfired : clip.duration - (act.time + DELTA_MS) % clip.duration ≤ CROSSFADE_MS →
      tick { s with pendingTargetGait := some target, waitForCycleEnd := true } =
        playQueueStep (deferralQueueState s act target) := by
    intro hcond
    have htb : timeToEndLe (act.time + DELTA_MS) clip.duration CROSSFADE_MS = true :=
      (timeToEndLe_iff _ _ _ (by simp only [DELTA_MS_eq]; omega) hDur).mpr hcond
    unfold tick advanceMixer checkCycleEnd
    simp only [Option.map_some', hAct]
    split
    case isFalse h2 => exact absurd ⟨by trivial, hSel⟩ h2
    simp only [hClip]
    split
    case isFalse h2 => exact absurd ⟨hLoop, htb⟩ h2
    unfold startTransitionToGait
    have hg : getCurrentGait
        { s with
            currentAction := some { name := act.name, loop := act.loop, time := act.time + DELTA_MS }
            pendingTargetGait := none
            waitForCycleEnd := false } = getCurrentGait s := rfl
    simp only [hg]
    split
    case isTrue h2 => exact absurd (by simpa using h2) hpath
    exact hqs
  have hunfired : ¬ (clip.duration - (act.time + DELTA_MS) % clip.duration ≤ CROSSFADE_MS) →
      tick { s with pendingTargetGait := some target, waitForCycleEnd := true } =
        { s with
            currentAction := some { name := act.name, loop := act.loop, time := act.time + DELTA_MS }
            pendingTargetGait := some target
            waitForCycleEnd := true } := by
    intro hcond
    have htb : timeToEndLe (act.time + DELTA_MS) clip.duration CROSSFADE_MS = false := by
      cases h : timeToEndLe (act.time + DELTA_MS) clip.duration CROSSFADE_MS
      · rfl
      · exact absurd ((timeToEndLe_iff _ _ _ (by simp only [DELTA_MS_eq]; omega) hDur).mp h) hcond
    unfold tick advanceMixer checkCycleEnd
    simp only [Option.map_some', hAct]
    split
    case isFalse h2 => exact absurd ⟨by trivial, hSel⟩ h2
    simp only [hClip]
    split
    case isTrue h2 => exact absurd h2.2 (by simp [htb])
    unfold checkQueueAdvance
    simp only []
    split
    case isTrue h2 => exact absurd h2.1 (by simp [hTr])
    rfl
  refine ⟨h1, ?_, ?_⟩
  · by_cases hcond : clip.duration - (act.time + DELTA_MS) % clip.duration ≤ CROSSFADE_MS
    · rw [hfired hcond]
      simp [hcond, deferralQueueState]
    · rw [hunfired hcond]
      simp [hcond]
  · intro hcond
    rw [hfired hcond]
    simp [deferralQueueState]

/-- A settled state: idle in the stand loop 336 ms into the cycle, all demo
clips loaded. -/
def c6State : SeqState :=
  { animations := demoClips
    currentAction := some ⟨"stand", true, 336⟩
    selectedAnimation := "stand"
    isPlaying := true
    animationQueue := []
    currentAnimIndex := 0
    pendingTargetGait := none
    currentGaitState := .stand
    isTransitioning := false
    waitForCycleEnd := false
    playLog := [("stand", true, 0)] }

/-- Witness for C6: at `c6State` (48 ms before the cycle boundary after the
tick's 16 ms update), requesting walk defers, and the next tick fires and
installs the stand-to-walk queue. -/
theorem loop_boundary_deferral_witness :
    playTransitionTo c6State .walk =
      { c6State with pendingTargetGait := some .walk, waitForCycleEnd := true } ∧
    (tick { c6State with pendingTargetGait := some .walk, waitForCycleEnd := true }).animationQueue
      = findTransitionPath (getCurrentGait c6State) .walk :=
  ⟨(loop_boundary_deferral c6State ⟨"stand", true, 336⟩ ⟨"stand", 400⟩ ⟨"stand_to_walk", 400⟩
      .walk rfl rfl rfl (by decide) (by decide) (by decide) (by decide) (by decide)
      (by decide) (by decide)).1,
   (loop_boundary_deferral c6State ⟨"stand", true, 336⟩ ⟨"stand", 400⟩ ⟨"stand_to_walk", 400⟩
      .walk rfl rfl rfl (by decide) (by decide) (by decide) (by decide) (by decide)
      (by decide) (by decide)).2.2 (by decide)⟩

/-- The cycle-end deferral block is inert whenever the wait flag is down. -/
theorem checkCycleEnd_not_waiting (u : SeqState) (h : u.waitForCycleEnd = false) :
    checkCycleEnd u = u := by
  unfold checkCycleEnd
  split
  · split
    next h2 => exact absurd h2.1 (by simp [h])
    next => rfl
  · rfl

/-- Claim C8 (degenerate clip duration): with the current clip reporting a
zero or negative duration, the tick's comparisons cannot fault — the
deferral's modulo-by-zero case is defined and compares false, mirroring JS
`NaN` — and the queue-advance comparison `elapsed >= duration - 0.05` is
immediately true, so the tick advances to the next queue element at once. -/
theorem degenerate_duration_advances (s : SeqState) (act : AnimAction) (clip : Clip)
    (hTr : s.isTransitioning = true)
    (hWait : s.waitForCycleEnd = false)
    (hAct : s.currentAction = some act)
    (hTime : 0 ≤ act.time)
    (hSel : s.selectedAnimation ≠ "")
    (hClip : findClip s.animations s.selectedAnimation = some clip)
    (hDur : clip.duration ≤ 0)
    (hCur : s.currentAnimIndex < s.animationQueue.length) :
    (tick s).currentAnimIndex = s.currentAnimIndex + 1 ∧
    (∀ t : Int, timeToEndLe t 0 CROSSFADE_MS = false) := by
  refine ⟨?_, fun t => by unfold timeToEndLe; simp⟩
  unfold tick advanceMixer
  simp only [hAct, Option.map_some']
  rw [checkCycleEnd_not_waiting
    { s with currentAction := some ⟨act.name, act.loop, act.time + DELTA_MS⟩ } hWait]
  unfold checkQueueAdvance
  simp only [hClip]
  split
  case isFalse h2 => exact absurd ⟨hTr, hSel⟩ h2
  split
  case isFalse h2 =>
    exact absurd (show clip.duration - EPSILON_MS ≤ act.time + DELTA_MS by
      simp only [DELTA_MS_eq, EPSILON_MS_eq]; omega) h2
  unfold playNextInQueue
  split
  next h2 => exact absurd h2 (Nat.not_le.mpr hCur)
  next h2 => simp

/-- A mid-transition state whose current clip reports duration 0. -/
def c8State : SeqState :=
  { animations := [⟨"clip_a", 0⟩, ⟨"clip_b", 400⟩]
    currentAction := some ⟨"clip_a", false, 0⟩
    selectedAnimation := "clip_a"
    isPlaying := true
    animationQueue := ["clip_a", "clip_b"]
    currentAnimIndex := 1
    pendingTargetGait := none
    currentGaitState := .stand
    isTransitioning := true
    waitForCycleEnd := false
    playLog := [] }

/-- Witness for C8: a zero-duration current clip makes the very next tick
advance the queue cursor. -/
theorem degenerate_duration_advances_witness :
    (tick c8State).currentAnimIndex = c8State.currentAnimIndex + 1 :=
  (degenerate_duration_advances c8State ⟨"clip_a", false, 0⟩ ⟨"clip_a", 0⟩
    rfl rfl rfl (by decide) (by decide) (by decide) (by decide) (by decide)).1

/-- Assumption for C10: every clip name the authored graph mentions exists in
the loaded clip set. -/
def GraphClipsLoaded (anims : List Clip) : Prop :=
  ∀ n ∈ graphClipNames, (findClip anims n).isSome = true

/-- The inductive sequencer invariant behind C10: the loaded clip list is
fixed; the selected animation and every queued clip are graph clip names;
`isTransitioning` tracks queue non-emptiness; the cursor stays within the
queue (and is 0 when settled); and there is always a current action, looping
exactly when settled or playing the final queue element. -/
def SeqInv (anims : List Clip) (s : SeqState) : Prop :=
  s.animations = anims ∧
  s.selectedAnimation ∈ graphClipNames ∧
  (s.isTransitioning = true ↔ s.animationQueue ≠ []) ∧
  s.currentAnimIndex ≤ s.animationQueue.length ∧
  (∀ c ∈ s.animationQueue, c ∈ graphClipNames) ∧
  (s.isTransitioning = false → s.currentAnimIndex = 0) ∧
  ∃ a, s.currentAction = some a ∧
    (a.loop = true ↔ (s.isTransitioning = false ∨ s.currentAnimIndex = s.animationQueue.length))

/-- `startTransitionToGait` restores the invariant from any state with the
right clip list: with the authored graph the path is never empty, its clips
are graph clips, and the first element starts playing at cursor 1. -/
theorem startTransitionToGait_inv (anims : List Clip) (hload : GraphClipsLoaded anims)
    (s : SeqState) (hanims : s.animations = anims) (target : GaitState) :
    SeqInv anims (startTransitionToGait s target) := by
  unfold startTransitionToGait
  have hpath := findTransitionPath_ne_nil (getCurrentGait s) target
  rw [if_neg (by simpa using hpath)]
  have hmem : (findTransitionPath (getCurrentGait s) target).getD 0 "" ∈ graphClipNames := by
    apply findTransitionPath_subset_graph (getCurrentGait s) target
    cases hq : findTransitionPath (getCurrentGait s) target with
    | nil => exact absurd hq hpath
    | cons x xs => simp
  obtain ⟨c, hc⟩ := Option.isSome_iff_exists.mp (hload _ hmem)
  have hlen : 1 ≤ (findTransitionPath (getCurrentGait s) target).length :=
    List.length_pos.mpr hpath
  obtain ⟨hA, hS⟩ := playQueueStep_played
    { s with
        animationQueue := findTransitionPath (getCurrentGait s) target
        currentAnimIndex := 0
        isTransitioning := true } c
    (by show findClip s.animations _ = some c; rw [hanims]; exact hc)
  refine ⟨by simp [hanims], ?_, ?_, ?_, ?_, ?_, ?_⟩
  · rw [hS]
    exact hmem
  · simp [hpath]
  · simp [hlen]
  · simpa using findTransitionPath_subset_graph (getCurrentGait s) target
  · simp
  · refine ⟨_, hA, ?_⟩
    simp only [playQueueStep_isTransitioning, playQueueStep_currentAnimIndex,
      playQueueStep_animationQueue, decide_eq_true_iff]
    constructor
    · intro h0
      right
      omega
    · intro h0
      rcases h0 with h0 | h0
      · exact absurd h0 (by simp)
      · omega

/-- `playNextInQueue` preserves the invariant whenever it is called with the
transition flag up (as the tick does). -/
theorem playNextInQueue_inv (anims : List Clip) (hload : GraphClipsLoaded anims)
    (s : SeqState) (hinv : SeqInv anims s) (hTr : s.isTransitioning = true) :
    SeqInv anims (playNextInQueue s) := by
  obtain ⟨h1, h2, h3, h4, h5, h6, a, ha, hloop⟩ := hinv
  unfold playNextInQueue
  split
  next hge =>
    cases hp : s.pendingTargetGait with
    | some tgt =>
      simp only [hp]
      exact startTransitionToGait_inv anims hload _ (by exact h1) tgt
    | none =>
      simp only [hp]
      refine ⟨by exact h1, by exact h2, by simp, by simp, by simp, by simp, a, by exact ha, ?_⟩
      have hcl : s.currentAnimIndex = s.animationQueue.length := le_antisymm h4 hge
      simp only [hTr, hcl] at hloop
      simp [hloop.mpr (Or.inr trivial)]
  next hlt =>
    have hcur : s.currentAnimIndex < s.animationQueue.length := by omega
    have hmem : s.animationQueue.getD s.currentAnimIndex "" ∈ s.animationQueue := by
      rw [List.getD_eq_getElem s.animationQueue "" hcur]
      exact List.getElem_mem hcur
    obtain ⟨c, hc⟩ := Option.isSome_iff_exists.mp (hload _ (h5 _ hmem))
    obtain ⟨hA, hS⟩ := playQueueStep_played s c (by rw [h1]; exact hc)
    refine ⟨by simp [h1], ?_, ?_, ?_, ?_, ?_, _, hA, ?_⟩
    · rw [hS]
      exact h5 _ hmem
    · simpa using h3
    · simp
      omega
    · simpa using h5
    · simp [hTr]
    · simp only [playQueueStep_isTransitioning, playQueueStep_currentAnimIndex,
        playQueueStep_animationQueue, decide_eq_true_iff, hTr]
      constructor
      · intro h0
        right
        omega
      · intro h0
        rcases h0 with h0 | h0
        · simp at h0
        · omega

set_option linter.unnecessarySimpa false in
/-- `requestGait` preserves the invariant and — the C10 point — never touches
the animation queue: from a settled state it is a no-op or defers (the settled
clip always loops, so the immediate-start branch is dead), and while
transitioning it only overwrites the pending slot. -/
theorem playTransitionTo_inv (anims : List Clip) (hload : GraphClipsLoaded anims)
    (s : SeqState) (hinv : SeqInv anims s) (target : GaitState) :
    SeqInv anims (playTransitionTo s target) ∧
    (playTransitionTo s target).animationQueue = s.animationQueue := by
  obtain ⟨h1, h2, h3, h4, h5, h6, a, ha, hloop⟩ := hinv
  unfold playTransitionTo
  split
  next => exact ⟨⟨h1, h2, h3, h4, h5, h6, a, ha, hloop⟩, rfl⟩
  next hguard =>
    split
    next htr =>
      refine ⟨⟨by exact h1, by exact h2, by simpa using h3, by simpa using h4,
        by simpa using h5, by simpa using h6, a, by simpa using ha, by simpa using hloop⟩, ?_⟩
      trivial
    next htr =>
      have hTrF : s.isTransitioning = false := by
        revert htr
        cases s.isTransitioning <;> simp
      obtain ⟨c, hc⟩ := Option.isSome_iff_exists.mp (hload _ h2)
      have hcs : findClip s.animations s.selectedAnimation = some c := by rw [h1]; exact hc
      have haloop : a.loop = true := hloop.mpr (Or.inl hTrF)
      simp only [hcs, ha, haloop, if_true]
      refine ⟨⟨by exact h1, by exact h2, by simpa using h3, by simpa using h4,
        by simpa using h5, by simpa using h6, a, by simpa using ha, by simpa using hloop⟩, ?_⟩
      trivial

/-- The mixer clock update preserves the invariant. -/
theorem advanceMixer_inv (anims : List Clip) (s : SeqState) (hinv : SeqInv anims s) :
    SeqInv anims (advanceMixer s) := by
  obtain ⟨h1, h2, h3, h4, h5, h6, a, ha, hloop⟩ := hinv
  unfold advanceMixer
  exact ⟨by exact h1, by exact h2, by simpa using h3, by simpa using h4, by simpa using h5,
    by simpa using h6, ⟨a.name, a.loop, a.time + DELTA_MS⟩, by simp [ha],
    by simpa using hloop⟩

/-- The cycle-end deferral block preserves the invariant. -/
theorem checkCycleEnd_inv (anims : List Clip) (hload : GraphClipsLoaded anims)
    (s : SeqState) (hinv : SeqInv anims s) : SeqInv anims (checkCycleEnd s) := by
  unfold checkCycleEnd
  split
  next act tgt heq1 heq2 =>
    split
    next hcond =>
      split
      next clip heq3 =>
        split
        next hfire => exact startTransitionToGait_inv anims hload _ (by exact hinv.1) tgt
        next => exact hinv
      next => exact hinv
    next => exact hinv
  next => exact hinv

/-- The queue-advance block preserves the invariant. -/
theorem checkQueueAdvance_inv (anims : List Clip) (hload : GraphClipsLoaded anims)
    (s : SeqState) (hinv : SeqInv anims s) : SeqInv anims (checkQueueAdvance s) := by
  unfold checkQueueAdvance
  split
  next act heq1 =>
    split
    next hcond =>
      split
      next clip heq2 =>
        split
        next hadv => exact playNextInQueue_inv anims hload s hinv hcond.1
        next => exact hinv
      next => exact hinv
    next => exact hinv
  next => exact hinv

/-- A full tick preserves the invariant. -/
theorem tick_inv (anims : List Clip) (hload : GraphClipsLoaded anims)
    (s : SeqState) (hinv : SeqInv anims s) : SeqInv anims (tick s) :=
  checkQueueAdvance_inv anims hload _
    (checkCycleEnd_inv anims hload _ (advanceMixer_inv anims _ hinv))

/-- The invariant holds right after initialisation. -/
theorem loadedState_inv (anims : List Clip) (hload : GraphClipsLoaded anims) :
    SeqInv anims (loadedState anims) := by
  have hstand : "stand" ∈ graphClipNames := by decide
  obtain ⟨c, hc⟩ := Option.isSome_iff_exists.mp (hload _ hstand)
  unfold loadedState initState playAnimation
  simp only [hc]
  exact ⟨rfl, hstand, by simp, by simp, by simp, by simp, ⟨"stand", true, 0⟩, rfl, by simp⟩

/-- The invariant holds in every reachable state. -/
theorem reachable_inv (anims : List Clip) (hload : GraphClipsLoaded anims)
    (s : SeqState) (hs : Reachable anims s) : SeqInv anims s := by
  induction hs with
  | init => exact loadedState_inv anims hload
  | request t hr ih => exact (playTransitionTo_inv anims hload _ ih t).1
  | frame hr ih => exact tick_inv anims hload _ ih

/-- Claim C10 (sequencer state invariant): in every state reachable from
initialisation through `requestGait` calls and ticks, assuming every graph
clip name is loaded: `isTransitioning` is true iff the animation queue is
non-empty, the cursor stays within the queue, whenever not transitioning the
current action is loop-mode (the settled state is always a loop), and no
`requestGait` ever touches the queue directly — the immediate-start branch is
never taken from a settled state. -/
theorem sequencer_state_invariant (anims : List Clip) (hload : GraphClipsLoaded anims)
    (s : SeqState) (hs : Reachable anims s) :
    (s.isTransitioning = true ↔ s.animationQueue ≠ []) ∧
    s.currentAnimIndex ≤ s.animationQueue.length ∧
    (s.isTransitioning = false → ∃ a, s.currentAction = some a ∧ a.loop = true) ∧
    (∀ target : GaitState, (playTransitionTo s target).animationQueue = s.animationQueue) := by
  have hinv := reachable_inv anims hload s hs
  obtain ⟨h1, h2, h3, h4, h5, h6, a, ha, hloop⟩ := hinv
  refine ⟨h3, h4, ?_, ?_⟩
  · intro hf
    exact ⟨a, ha, hloop.mpr (Or.inl hf)⟩
  · intro target
    exact (playTransitionTo_inv anims hload s
      ⟨h1, h2, h3, h4, h5, h6, a, ha, hloop⟩ target).2

/-- Witness for C10 at the freshly initialised demo state. -/
theorem sequencer_state_invariant_witness :
    ((loadedState demoClips).isTransitioning = true ↔
      (loadedState demoClips).animationQueue ≠ []) ∧
    (loadedState demoClips).currentAnimIndex ≤ (loadedState demoClips).animationQueue.length ∧
    ((loadedState demoClips).isTransitioning = false →
      ∃ a, (loadedState demoClips).currentAction = some a ∧ a.loop = true) ∧
    (∀ target : GaitState,
      (playTransitionTo (loadedState demoClips) target).animationQueue =
        (loadedState demoClips).animationQueue) :=
  sequencer_state_invariant demoClips
    (by show ∀ n ∈ graphClipNames, (findClip demoClips n).isSome = true; decide)
    (loadedState demoClips) Reachable.init
